import Mathlib

/-!
Shallow embedding of `mlagents/trainers/optimizer.py` (the `Optimizer` /
`TFOptimizer` abstraction of the ml-agents trainer fragment), together with
theorems settling the behavioural claims about its value-estimation protocol.

Modelling conventions:
* Python floats are modelled as exact rationals (`PyFloat := Rat`): this
  fragment performs no arithmetic on numeric data — it only routes values
  between dictionaries and assigns the literal `0.0` — so an exact, decidable
  scalar type is a faithful carrier.
* TensorFlow graph nodes (`tf.Tensor`) are opaque handles (`Tensor := Nat`);
  attributes that may be Python `None` are `Option Tensor`.
* Python `dict` is an insertion-ordered association list; assignment replaces
  the value of an existing key in place and appends a fresh key.
* Operations that can raise a Python exception on the traced paths
  (`KeyError` from `self.reward_signals[k]`, `IndexError` from
  `batch["actions"][-1]` and `self.policy.visual_in[i]`, `sess.run` on a
  `None` fetch) return `Option`, with `none` for the raised exception.
-/

namespace MLAgentsOpt

/-- Python `float` data carried through the optimizer. Modelled as exact
rationals: the fragment only moves these values around and writes the literal
`0.0`; it never computes with them. -/
abbrev PyFloat := Rat

/-- An opaque TensorFlow graph-node handle (`tf.Tensor`). -/
abbrev Tensor := Nat

/-- Data placed into a feed dictionary: an integer (batch size / sequence
length placeholders) or a 2-D numeric array (observation batches, memory
vectors wrapped in a singleton batch, previous actions). -/
inductive FeedValue where
  | nat (n : Nat)
  | arr (a : List (List PyFloat))
deriving DecidableEq

/-- A TensorFlow feed dictionary. Keys are the values of tensor-valued
attributes, which in Python may be `None` (feeding under a `None` key is
representable, exactly as in the source). -/
abbrev FeedDict := List (Option Tensor × FeedValue)

/-- Python `d[k] = v` on an insertion-ordered dict: replaces the value of an
existing key in place, otherwise appends the new binding. -/
def dictInsert {α β : Type} [BEq α] : List (α × β) → α → β → List (α × β)
  | [], k, v => [(k, v)]
  | kv :: rest, k, v => if kv.1 == k then (k, v) :: rest else kv :: dictInsert rest k v

/-- Python `d.update(d2)`: inserts every binding of `d2` into `d` in order. -/
def dictUpdate {α β : Type} [BEq α] (d d2 : List (α × β)) : List (α × β) :=
  d2.foldl (fun acc kv => dictInsert acc kv.1 kv.2) d

/-- `np.zeros((n))`: a zero-filled vector of size `n`. -/
def npZeros (n : Nat) : List PyFloat :=
  List.replicate n 0

/-- `np.squeeze(v, axis=1)` on a column array of shape `(T, 1)`: drops the
singleton second axis. (numpy raises on a malformed axis; the traced calls
only squeeze well-shaped column outputs, modelled by taking each row's
entry.) -/
def npSqueeze1 (a : List (List PyFloat)) : List PyFloat :=
  a.map (fun r => r.headD 0)

/-- Python `float(v)` on a one-element numpy array: extracts the scalar.
(The traced calls only convert single-element value-head outputs.) -/
def npToFloat (a : List (List PyFloat)) : PyFloat :=
  (a.headD []).headD 0

/-- Python `range(start, stop, step)` for a positive step. (`range` with
step `0` raises `ValueError` in Python; modelled as the empty range, which no
traced call reaches with a positive sequence length.) -/
def rangeStep (start stop step : Nat) : List Nat :=
  if _h : 0 < step ∧ start < stop then
    start :: rangeStep (start + step) stop step
  else []
termination_by stop - start
decreasing_by omega

/-- Modelled from the spec: graph execution (`tf.Session`) is external to this
fragment. The session "executes the underlying computation graph once" and is
"deterministic given fixed parameters and inputs": it is a pure function from
a feed dictionary and a fetched tensor to that tensor's computed value (a 2-D
numeric array). -/
structure Session where
  eval : FeedDict → Tensor → List (List PyFloat)

/-- `sess.run(list_of_tensors, feed_dict)`: one value per fetched tensor, in
fetch order. -/
def Session.runList (s : Session) (fetches : List Tensor) (feed : FeedDict) :
    List (List (List PyFloat)) :=
  fetches.map (s.eval feed)

/-- `sess.run(dict_of_tensors, feed_dict)`: a dict with the same keys, each
bound to its tensor's computed value. -/
def Session.runDict (s : Session) (fetches : List (String × Tensor)) (feed : FeedDict) :
    List (String × List (List PyFloat)) :=
  fetches.map (fun kv => (kv.1, s.eval feed kv.2))

/-- A raw per-sensor observation as handed to `get_value_estimates`: either a
1-D vector observation or a visual observation (its pixel data flattened —
this fragment never looks inside it). -/
inductive RawObs where
  | vec (a : List PyFloat)
  | vis (a : List PyFloat)
deriving DecidableEq

/-- Modelled from the spec: `SplitObservations` (trajectory.py is external to
this fragment) "splits the raw next observation into vector and visual
components". -/
structure SplitObservations where
  vector_observations : List PyFloat
  visual_observations : List (List PyFloat)

/-- Modelled from the spec: splitting collects the visual components in order
and concatenates the vector components into a single vector. -/
def SplitObservations.from_observations (obs : List RawObs) : SplitObservations :=
  { vector_observations :=
      (obs.filterMap (fun o => match o with | .vec a => some a | .vis _ => none)).flatten,
    visual_observations :=
      obs.filterMap (fun o => match o with | .vis a => some a | .vec _ => none) }

/-- Modelled from the spec: the `AgentBuffer` (buffer.py is external to this
fragment) is "an ordered mapping from field name ... to a sequence of
per-timestep arrays" together with "a count of experiences"; field access by
string key never raises (absent fields read as empty, as in the source's
default-dict buffer). -/
structure AgentBuffer where
  fields : List (String × List (List PyFloat))
  num_experiences : Nat
deriving DecidableEq

/-- `batch[key]`: the per-timestep arrays stored under `key`. -/
def AgentBuffer.get (b : AgentBuffer) (k : String) : List (List PyFloat) :=
  (b.fields.lookup k).getD []

/-- Modelled from the spec: the `TFPolicy` (tf_policy.py is external to this
fragment) exposes "observation/action placeholders, recurrent memory tensors,
batch-size/sequence-length parameters, and the shared execution session" as
"stable, pre-constructed graph handles". Attributes that are `None` in
Python for some configurations are `Option Tensor`. -/
structure TFPolicy where
  sess : Session
  batch_size_ph : Tensor
  sequence_length_ph : Tensor
  vector_in : Tensor
  visual_in : List Tensor
  vec_obs_size : Nat
  vis_obs_size : Nat
  use_recurrent : Bool
  memory_in : Option Tensor
  memory_out : Option Tensor
  m_size : Nat
  sequence_length : Nat
  prev_action : Option Tensor

/-- Modelled from the spec: a Reward Signal is an "immutable
configuration-bound object exposing a sub-graph of update targets
(`update_dict`) and a `use_terminal_states` boolean". -/
structure RewardSignal where
  use_terminal_states : Bool
  update_dict : List (String × Tensor)
deriving DecidableEq

/-- Modelled from the spec: the per-signal configuration consumed by the
reward-signal factory. -/
structure RewardSignalConfig where
  use_terminal_states : Bool
  update_dict : List (String × Tensor)
deriving DecidableEq

/-- Modelled from the spec: the reward-signal factory is "a construction
function taking (policy, signal name, config) and returning a Reward Signal
exposing `update_dict` and `use_terminal_states`"
(reward_signal_factory.py is external to this fragment). -/
def create_reward_signal (_p : TFPolicy) (_name : String) (config : RewardSignalConfig) :
    RewardSignal :=
  { use_terminal_states := config.use_terminal_states,
    update_dict := config.update_dict }

/-- The `trainer_params` dictionary as consumed by `TFOptimizer.__init__`,
which reads exactly the `"reward_signals"` entry. -/
structure TrainerParams where
  reward_signals : List (String × RewardSignalConfig)

/-- The mutable attribute state of a `TFOptimizer` instance. Stateful Python
methods become explicit state passing over this structure. -/
structure TFOptimizer where
  sess : Session
  policy : TFPolicy
  update_dict : List (String × Tensor)
  value_heads : List (String × Tensor)
  reward_signals : List (String × RewardSignal)
  memory_in : Option Tensor
  memory_out : Option Tensor
  m_size : Nat

/-- One iteration of the loop in `create_reward_signals`: build the signal for
one config entry, store it under its name, and merge its update sub-graph
into the combined update target set. -/
def rewardSignalStep (o : TFOptimizer) (kv : String × RewardSignalConfig) : TFOptimizer :=
  let sig := create_reward_signal o.policy kv.1 kv.2
  { o with reward_signals := dictInsert o.reward_signals kv.1 sig,
           update_dict := dictUpdate o.update_dict sig.update_dict }

/-- `TFOptimizer.create_reward_signals`: resets `self.reward_signals` to an
empty dict, then builds one signal per config entry, extending
`self.update_dict` with each signal's update sub-graph. -/
def TFOptimizer.create_reward_signals (opt : TFOptimizer)
    (reward_signal_configs : List (String × RewardSignalConfig)) : TFOptimizer :=
  reward_signal_configs.foldl rewardSignalStep { opt with reward_signals := [] }

/-- `TFOptimizer.__init__`: binds the policy and its session, starts with
empty update/value-head dicts, creates the reward signals from
`trainer_params["reward_signals"]`, and initialises the value-network memory
attributes (`memory_in = memory_out = None`, `m_size = 0`). Construction
requires a policy argument (the abstract `Optimizer.__init__` contract). -/
def TFOptimizer.init (p : TFPolicy) (trainer_params : TrainerParams) : TFOptimizer :=
  let opt : TFOptimizer :=
    { sess := p.sess, policy := p, update_dict := [], value_heads := [],
      reward_signals := [], memory_in := none, memory_out := none, m_size := 0 }
  let opt := opt.create_reward_signals trainer_params.reward_signals
  { opt with memory_in := none, memory_out := none, m_size := 0 }

/-- The terminal-state reassignment loop of `get_value_estimates`: for each
estimate, look its signal up in `self.reward_signals` (`KeyError`, i.e.
`none`, if the name is unregistered) and force the estimate to `0.0` when the
signal uses terminal states. -/
def zeroTerminals (rs : List (String × RewardSignal)) :
    List (String × PyFloat) → Option (List (String × PyFloat))
  | [] => some []
  | kv :: rest =>
    match rs.lookup kv.1 with
    | none => none
    | some sig =>
      match zeroTerminals rs rest with
      | none => none
      | some rest2 =>
        some ((if sig.use_terminal_states then (kv.1, 0) else kv) :: rest2)

/-- The feed dictionary built by `get_value_estimates`: a single-timestep,
single-batch feed from the split observation, optionally including the
recurrent memories and previous action when supplied. `none` models the
`IndexError` raised when there are more visual observations than visual input
placeholders. -/
def TFOptimizer.bootstrapFeed (opt : TFOptimizer) (next_obs : List RawObs)
    (policy_memory value_memory : Option (List (List PyFloat)))
    (prev_action : Option (List PyFloat)) : Option FeedDict :=
  let p := opt.policy
  let feed_dict : FeedDict :=
    dictInsert (dictInsert [] (some p.batch_size_ph) (FeedValue.nat 1))
      (some p.sequence_length_ph) (FeedValue.nat 1)
  let vec_vis_obs := SplitObservations.from_observations next_obs
  match vec_vis_obs.visual_observations.enum.foldl
      (fun fd it => fd.bind (fun fd =>
        (p.visual_in[it.1]?).map (fun t => dictInsert fd (some t) (FeedValue.arr [it.2]))))
      (some feed_dict) with
  | none => none
  | some feed_dict =>
    let feed_dict := if p.vec_obs_size > 0 then
        dictInsert feed_dict (some p.vector_in)
          (FeedValue.arr [vec_vis_obs.vector_observations])
      else feed_dict
    let feed_dict := match policy_memory with
      | some m => dictInsert feed_dict p.memory_in (FeedValue.arr m)
      | none => feed_dict
    let feed_dict := match value_memory with
      | some m => dictInsert feed_dict opt.memory_in (FeedValue.arr m)
      | none => feed_dict
    let feed_dict := match prev_action with
      | some a => dictInsert feed_dict p.prev_action (FeedValue.arr [a])
      | none => feed_dict
    some feed_dict

/-- `TFOptimizer.get_value_estimates`: builds the bootstrap feed, runs the
value heads once, converts each output to a plain scalar, and — when `done` —
forces the estimate of every signal flagged `use_terminal_states` to `0.0`. -/
def TFOptimizer.get_value_estimates (opt : TFOptimizer) (next_obs : List RawObs)
    (done : Bool) (policy_memory value_memory : Option (List (List PyFloat)))
    (prev_action : Option (List PyFloat)) : Option (List (String × PyFloat)) :=
  match opt.bootstrapFeed next_obs policy_memory value_memory prev_action with
  | none => none
  | some feed_dict =>
    let value_estimates :=
      (opt.sess.runDict opt.value_heads feed_dict).map (fun kv => (kv.1, npToFloat kv.2))
    if done then zeroTerminals opt.reward_signals value_estimates
    else some value_estimates

/-- State-passing form of `get_value_estimates`: the source method reads but
never assigns any attribute of `self`, so the post-state is the pre-state. -/
def TFOptimizer.get_value_estimates_st (opt : TFOptimizer) (next_obs : List RawObs)
    (done : Bool) (policy_memory value_memory : Option (List (List PyFloat)))
    (prev_action : Option (List PyFloat)) :
    Option (List (String × PyFloat)) × TFOptimizer :=
  (opt.get_value_estimates next_obs done policy_memory value_memory prev_action, opt)

/-- The feed dictionary built by `get_trajectory_value_estimates`: the whole
batch fed batch-wise (sequence length set to the batch size), with zeroed
recurrent memories when the policy is recurrent and the batch's previous
actions when the policy conditions on them. -/
def TFOptimizer.trajectoryFeed (opt : TFOptimizer) (batch : AgentBuffer) : FeedDict :=
  let p := opt.policy
  let feed_dict : FeedDict :=
    dictInsert (dictInsert [] (some p.batch_size_ph) (FeedValue.nat batch.num_experiences))
      (some p.sequence_length_ph) (FeedValue.nat batch.num_experiences)
  let feed_dict := if p.vec_obs_size > 0 then
      dictInsert feed_dict (some p.vector_in) (FeedValue.arr (batch.get ("vector_obs")))
    else feed_dict
  let feed_dict := if p.vis_obs_size > 0 then
      p.visual_in.enum.foldl (fun fd it =>
        dictInsert fd (some it.2) (FeedValue.arr (batch.get ("visual_obs" ++ toString it.1))))
        feed_dict
    else feed_dict
  let feed_dict := if p.use_recurrent then
      dictInsert (dictInsert feed_dict p.memory_in (FeedValue.arr [npZeros p.m_size]))
        opt.memory_in (FeedValue.arr [npZeros opt.m_size])
    else feed_dict
  let feed_dict := if p.prev_action.isSome then
      dictInsert feed_dict p.prev_action (FeedValue.arr (batch.get ("prev_action")))
    else feed_dict
  feed_dict

/-- The network-execution branch of `get_trajectory_value_estimates`:
recurrent policies run the value heads together with both memory outputs in
one execution and take the batch's last action as the bootstrap context
(`IndexError`, i.e. `none`, on an empty action field, and a fatal `sess.run`
on a `None` memory fetch); non-recurrent policies run the value heads alone
with an empty context. -/
def TFOptimizer.trajectoryRun (opt : TFOptimizer) (batch : AgentBuffer) :
    Option (List (String × List (List PyFloat)) × Option (List (List PyFloat)) ×
      Option (List (List PyFloat)) × Option (List PyFloat)) :=
  let feed_dict := opt.trajectoryFeed batch
  if opt.policy.use_recurrent then
    match opt.policy.memory_out, opt.memory_out with
    | some pmt, some vmt =>
      match (batch.get ("actions")).getLast? with
      | some prev_action =>
        some (opt.sess.runDict opt.value_heads feed_dict,
              some (opt.sess.eval feed_dict pmt),
              some (opt.sess.eval feed_dict vmt),
              some prev_action)
      | none => none
    | _, _ => none
  else
    some (opt.sess.runDict opt.value_heads feed_dict, none, none, none)

/-- `TFOptimizer.get_trajectory_value_estimates`: runs the value heads over
the whole batch, squeezes the singleton time axis out of each per-timestep
output, and delegates to `get_value_estimates` with the run's memory and
previous-action context to produce the bootstrap estimate for `next_obs`. -/
def TFOptimizer.get_trajectory_value_estimates (opt : TFOptimizer) (batch : AgentBuffer)
    (next_obs : List RawObs) (done : Bool) :
    Option (List (String × List PyFloat) × List (String × PyFloat)) :=
  match opt.trajectoryRun batch with
  | none => none
  | some (value_estimates, policy_mem, value_mem, prev_action) =>
    let value_estimates := value_estimates.map (fun kv => (kv.1, npSqueeze1 kv.2))
    match opt.get_value_estimates next_obs done policy_mem value_mem prev_action with
    | none => none
    | some final_value_estimates => some (value_estimates, final_value_estimates)

/-- State-passing form of `get_trajectory_value_estimates` over the buffer:
every buffer access in the source (`batch[...]`, `batch.num_experiences`) is
a read, so the buffer after the call is the buffer passed in. -/
def TFOptimizer.get_trajectory_value_estimates_frame (opt : TFOptimizer)
    (batch : AgentBuffer) (next_obs : List RawObs) (done : Bool) :
    Option (List (String × List PyFloat) × List (String × PyFloat)) × AgentBuffer :=
  (opt.get_trajectory_value_estimates batch next_obs done, batch)

/-- `TFOptimizer._execute_model`: fetches the out-dict's tensors in one
execution and zips the results back with the out-dict's keys. -/
def TFOptimizer._execute_model (opt : TFOptimizer) (feed_dict : FeedDict)
    (out_dict : List (String × Tensor)) : List (String × List (List PyFloat)) :=
  let network_out := opt.sess.runList (out_dict.map Prod.snd) feed_dict
  let run_out := List.zip (out_dict.map Prod.fst) network_out
  run_out

/-- `TFOptimizer._make_zero_mem`: one zero-filled vector of size `m_size` per
recurrent-sequence boundary in a span of `length` timesteps, with stride the
policy's sequence length. -/
def TFOptimizer._make_zero_mem (opt : TFOptimizer) (m_size length : Nat) :
    List (List PyFloat) :=
  (rangeStep 0 length opt.policy.sequence_length).map (fun _ => npZeros m_size)

/-! Helper lemmas about the embedded dictionary operations. -/

/-- Projecting the keys out of a per-value map leaves the key list unchanged. -/
theorem map_kv_keys {α β γ : Type} (l : List (α × β)) (g : β → γ) :
    (l.map (fun kv => (kv.1, g kv.2))).map Prod.fst = l.map Prod.fst := by
  induction l with
  | nil => rfl
  | cons kv rest ih => simp [ih]

/-- `sess.run` on a dict of fetches returns a dict with the same keys, in the
same order. -/
theorem runDict_keys (s : Session) (d : List (String × Tensor)) (feed : FeedDict) :
    (s.runDict d feed).map Prod.fst = d.map Prod.fst :=
  map_kv_keys d (s.eval feed)

/-- The terminal-state loop preserves the estimate keys and their order. -/
theorem zeroTerminals_keys (rs : List (String × RewardSignal)) :
    ∀ l res, zeroTerminals rs l = some res → res.map Prod.fst = l.map Prod.fst := by
  intro l
  induction l with
  | nil => intro res h; simp [zeroTerminals] at h; simp [h.symm]
  | cons kv rest ih =>
    intro res h
    simp only [zeroTerminals] at h
    cases hks : rs.lookup kv.1 with
    | none => rw [hks] at h; simp at h
    | some sig =>
      rw [hks] at h
      cases hzt : zeroTerminals rs rest with
      | none => rw [hzt] at h; simp at h
      | some rest2 =>
        rw [hzt] at h
        simp only [Option.some.injEq] at h
        subst h
        cases huts : sig.use_terminal_states <;> simp [huts, ih rest2 hzt]

/-- In the `done` branch, a registered signal flagged `use_terminal_states`
has its estimate forced to `0.0`, whatever the computed value was. -/
theorem zeroTerminals_lookup_eq_zero (rs : List (String × RewardSignal)) (k : String)
    (sig : RewardSignal) (hsig : rs.lookup k = some sig)
    (huts : sig.use_terminal_states = true) :
    ∀ (l res : List (String × PyFloat)) (v : PyFloat),
      zeroTerminals rs l = some res → res.lookup k = some v → v = 0 := by
  intro l
  induction l with
  | nil =>
    intro res v h hv
    simp [zeroTerminals] at h
    subst h
    simp [List.lookup] at hv
  | cons kv rest ih =>
    intro res v h hv
    simp only [zeroTerminals] at h
    cases hks : rs.lookup kv.1 with
    | none => rw [hks] at h; simp at h
    | some sig2 =>
      rw [hks] at h
      cases hzt : zeroTerminals rs rest with
      | none => rw [hzt] at h; simp at h
      | some rest2 =>
        rw [hzt] at h
        simp only [Option.some.injEq] at h
        subst h
        cases hkb : (k == kv.1) with
        | true =>
          have hkk : k = kv.1 := eq_of_beq hkb
          rw [← hkk] at hks
          rw [hsig] at hks
          have hss : sig2 = sig := by injection hks.symm
          subst hss
          rw [huts] at hv
          simp [List.lookup, hkb] at hv
          exact hv.symm
        | false =>
          cases huts2 : sig2.use_terminal_states <;>
            · rw [huts2] at hv
              simp only [if_true, Bool.false_eq_true, if_false] at hv
              simp [List.lookup, hkb] at hv
              exact ih rest2 v hzt hv

/-- In the `done` branch, a registered signal NOT flagged
`use_terminal_states` keeps exactly its computed estimate. -/
theorem zeroTerminals_lookup_of_not_terminal (rs : List (String × RewardSignal))
    (k : String) (sig : RewardSignal) (hsig : rs.lookup k = some sig)
    (huts : sig.use_terminal_states = false) :
    ∀ (l res : List (String × PyFloat)),
      zeroTerminals rs l = some res → res.lookup k = l.lookup k := by
  intro l
  induction l with
  | nil =>
    intro res h
    simp [zeroTerminals] at h
    subst h
    rfl
  | cons kv rest ih =>
    intro res h
    simp only [zeroTerminals] at h
    cases hks : rs.lookup kv.1 with
    | none => rw [hks] at h; simp at h
    | some sig2 =>
      rw [hks] at h
      cases hzt : zeroTerminals rs rest with
      | none => rw [hzt] at h; simp at h
      | some rest2 =>
        rw [hzt] at h
        simp only [Option.some.injEq] at h
        subst h
        cases hkb : (k == kv.1) with
        | true =>
          have hkk : k = kv.1 := eq_of_beq hkb
          rw [← hkk] at hks
          rw [hsig] at hks
          have hss : sig2 = sig := by injection hks.symm
          subst hss
          rw [huts]
          simp [List.lookup, hkb]
        | false =>
          cases huts2 : sig2.use_terminal_states <;>
            simp [List.lookup, hkb, ih rest2 hzt]

/-- Modelled from the spec: concrete optimizers (the subclasses populating
`self.value_heads` are external to this fragment) create one value head per
registered reward signal, so the value-head names coincide with "the
registered reward-signal names". -/
abbrev valueHeadsMatchSignals (opt : TFOptimizer) : Prop :=
  opt.value_heads.map Prod.fst = opt.reward_signals.map Prod.fst

/-! Concrete fixtures used by the claim witnesses: a small session whose
value heads all compute `2`, a non-recurrent vector-observation policy and an
optimizer with an extrinsic (terminal-state) and a curiosity (non-terminal)
signal, mirroring the spec's worked scenario. -/

def sampleSession : Session := ⟨fun _ _ => [[2]]⟩

def samplePolicy : TFPolicy :=
  { sess := sampleSession, batch_size_ph := 0, sequence_length_ph := 1,
    vector_in := 2, visual_in := [], vec_obs_size := 3, vis_obs_size := 0,
    use_recurrent := false, memory_in := none, memory_out := none,
    m_size := 0, sequence_length := 8, prev_action := none }

def sampleOpt : TFOptimizer :=
  { TFOptimizer.init samplePolicy
      ⟨[("extrinsic", ⟨true, []⟩), ("curiosity", ⟨false, []⟩)]⟩ with
    value_heads := [("extrinsic", 10), ("curiosity", 11)] }

def sampleBatch : AgentBuffer := ⟨[("vector_obs", [[1], [2]])], 2⟩

def sampleObs : List RawObs := [RawObs.vec [1]]

/-! The claim theorems. -/

/-- C1: for every registered reward signal whose `use_terminal_states` flag
is true, `get_value_estimates` called with `done = True` returns exactly
`0.0` as that signal's estimate, regardless of the input observation, memory,
or previous-action arguments. -/
theorem C1_terminal_signals_zeroed (opt : TFOptimizer) (next_obs : List RawObs)
    (policy_memory value_memory : Option (List (List PyFloat)))
    (prev_action : Option (List PyFloat)) (k : String) (sig : RewardSignal)
    (ve : List (String × PyFloat)) (v : PyFloat)
    (hsig : opt.reward_signals.lookup k = some sig)
    (huts : sig.use_terminal_states = true)
    (hve : opt.get_value_estimates next_obs true policy_memory value_memory prev_action
             = some ve)
    (hv : ve.lookup k = some v) :
    v = 0 := by
  simp only [TFOptimizer.get_value_estimates] at hve
  cases hbf : opt.bootstrapFeed next_obs policy_memory value_memory prev_action with
  | none => rw [hbf] at hve; simp at hve
  | some fd =>
    rw [hbf] at hve
    simp only [if_true] at hve
    exact zeroTerminals_lookup_eq_zero opt.reward_signals k sig hsig huts _ ve v hve hv

/-- C1 witness: on the concrete sample optimizer, the terminal-flagged
extrinsic signal's bootstrap estimate at `done = True` is exactly `0`. -/
theorem C1_witness : (0 : PyFloat) = 0 :=
  C1_terminal_signals_zeroed sampleOpt sampleObs none none none ("extrinsic")
    ⟨true, []⟩ [("extrinsic", 0), ("curiosity", 2)] 0
    (by decide) rfl (by decide) (by decide)

/-- C2: for every registered reward signal whose `use_terminal_states` flag
is false, `get_value_estimates` called with `done = True` returns the
network-computed estimate for that signal unchanged (the estimate the same
call computes with `done = False`); `done = True` never forces it to `0.0`. -/
theorem C2_nonterminal_passthrough (opt : TFOptimizer) (next_obs : List RawObs)
    (policy_memory value_memory : Option (List (List PyFloat)))
    (prev_action : Option (List PyFloat)) (k : String) (sig : RewardSignal)
    (ve : List (String × PyFloat))
    (hsig : opt.reward_signals.lookup k = some sig)
    (huts : sig.use_terminal_states = false)
    (hve : opt.get_value_estimates next_obs true policy_memory value_memory prev_action
             = some ve) :
    ve.lookup k =
      (opt.get_value_estimates next_obs false policy_memory value_memory prev_action).bind
        (fun l => l.lookup k) := by
  simp only [TFOptimizer.get_value_estimates] at hve ⊢
  cases hbf : opt.bootstrapFeed next_obs policy_memory value_memory prev_action with
  | none => rw [hbf] at hve; simp at hve
  | some fd =>
    rw [hbf] at hve
    simp only [if_true] at hve
    simp only [Bool.false_eq_true, if_false, Option.some_bind]
    exact zeroTerminals_lookup_of_not_terminal opt.reward_signals k sig hsig huts _ ve hve

/-- C2 witness: on the concrete sample optimizer, the non-terminal curiosity
signal's bootstrap estimate at `done = True` equals its computed estimate. -/
theorem C2_witness :
    List.lookup ("curiosity") [("extrinsic", (0 : PyFloat)), ("curiosity", 2)] =
      (sampleOpt.get_value_estimates sampleObs false none none none).bind
        (fun l => l.lookup ("curiosity")) :=
  C2_nonterminal_passthrough sampleOpt sampleObs none none none ("curiosity")
    ⟨false, []⟩ [("extrinsic", 0), ("curiosity", 2)]
    (by decide) rfl (by decide)

/-- The bootstrap estimates carry one entry per value head, in head order. -/
theorem get_value_estimates_keys (opt : TFOptimizer) (next_obs : List RawObs)
    (done : Bool) (pm vm : Option (List (List PyFloat))) (pa : Option (List PyFloat))
    (fve : List (String × PyFloat))
    (h : opt.get_value_estimates next_obs done pm vm pa = some fve) :
    fve.map Prod.fst = opt.value_heads.map Prod.fst := by
  simp only [TFOptimizer.get_value_estimates] at h
  cases hbf : opt.bootstrapFeed next_obs pm vm pa with
  | none => rw [hbf] at h; simp at h
  | some fd =>
    rw [hbf] at h
    cases done with
    | false =>
      simp only [Bool.false_eq_true, if_false, Option.some.injEq] at h
      rw [← h, map_kv_keys, runDict_keys]
    | true =>
      simp only [if_true] at h
      rw [zeroTerminals_keys _ _ _ h, map_kv_keys, runDict_keys]

/-- The batch run carries one per-timestep output per value head, in head
order. -/
theorem trajectoryRun_keys (opt : TFOptimizer) (batch : AgentBuffer)
    (ctx : List (String × List (List PyFloat)) × Option (List (List PyFloat)) ×
      Option (List (List PyFloat)) × Option (List PyFloat))
    (h : opt.trajectoryRun batch = some ctx) :
    ctx.1.map Prod.fst = opt.value_heads.map Prod.fst := by
  simp only [TFOptimizer.trajectoryRun] at h
  cases hrec : opt.policy.use_recurrent with
  | false =>
    rw [hrec] at h
    simp only [Bool.false_eq_true, if_false, Option.some.injEq] at h
    rw [← h]
    exact runDict_keys _ _ _
  | true =>
    rw [hrec] at h
    simp only [if_true] at h
    cases hpm : opt.policy.memory_out with
    | none => rw [hpm] at h; simp at h
    | some pmt =>
      cases hvm : opt.memory_out with
      | none => rw [hpm, hvm] at h; simp at h
      | some vmt =>
        rw [hpm, hvm] at h
        cases hla : (batch.get ("actions")).getLast? with
        | none => rw [hla] at h; simp at h
        | some la =>
          rw [hla] at h
          simp only [Option.some.injEq] at h
          rw [← h]
          exact runDict_keys _ _ _

/-- C3: for every batch, next observation, and termination flag,
`get_trajectory_value_estimates` returns a pair of mappings (per-timestep
trajectory estimates, bootstrap estimates) whose key sets are identical to
each other and equal to the set of registered reward-signal names. -/
theorem C3_key_sets_match (opt : TFOptimizer) (batch : AgentBuffer)
    (next_obs : List RawObs) (done : Bool)
    (ve : List (String × List PyFloat)) (fve : List (String × PyFloat))
    (hwf : valueHeadsMatchSignals opt)
    (h : opt.get_trajectory_value_estimates batch next_obs done = some (ve, fve)) :
    ve.map Prod.fst = opt.reward_signals.map Prod.fst ∧
    fve.map Prod.fst = opt.reward_signals.map Prod.fst := by
  simp only [TFOptimizer.get_trajectory_value_estimates] at h
  cases htr : opt.trajectoryRun batch with
  | none => rw [htr] at h; simp at h
  | some ctx =>
    rw [htr] at h
    obtain ⟨ve0, pm, vm, pa⟩ := ctx
    dsimp only at h
    cases hgv : opt.get_value_estimates next_obs done pm vm pa with
    | none => rw [hgv] at h; simp at h
    | some fve0 =>
      rw [hgv] at h
      simp only [Option.some.injEq, Prod.mk.injEq] at h
      obtain ⟨hve, hfve⟩ := h
      constructor
      · rw [← hve, map_kv_keys, trajectoryRun_keys opt batch (ve0, pm, vm, pa) htr]
        exact hwf
      · rw [← hfve, get_value_estimates_keys opt next_obs done pm vm pa fve0 hgv]
        exact hwf

/-- C3 witness: on the concrete sample optimizer, both returned mappings have
exactly the registered signal names as keys. -/
theorem C3_witness :
    ([("extrinsic", [(2 : PyFloat)]), ("curiosity", [2])].map Prod.fst =
        sampleOpt.reward_signals.map Prod.fst) ∧
    ([("extrinsic", (2 : PyFloat)), ("curiosity", 2)].map Prod.fst =
        sampleOpt.reward_signals.map Prod.fst) :=
  C3_key_sets_match sampleOpt sampleBatch sampleObs false
    [("extrinsic", [2]), ("curiosity", [2])] [("extrinsic", 2), ("curiosity", 2)]
    (by decide) (by decide)

/-! Fixtures for the delegation claim: a session whose value depends on
whether the previous-action placeholder (tensor 99) was fed, a non-recurrent
policy that nevertheless conditions on previous action, and a recurrent
optimizer exercising the memory-passing branch. -/

def cexSession : Session :=
  ⟨fun feed _ => if (feed.lookup (some 99)).isSome then [[1]] else [[2]]⟩

def cexPolicy : TFPolicy :=
  { sess := cexSession, batch_size_ph := 0, sequence_length_ph := 1, vector_in := 2,
    visual_in := [], vec_obs_size := 1, vis_obs_size := 0, use_recurrent := false,
    memory_in := none, memory_out := none, m_size := 0, sequence_length := 1,
    prev_action := some 99 }

def cexOpt : TFOptimizer :=
  { TFOptimizer.init cexPolicy ⟨[("extrinsic", ⟨true, []⟩)]⟩ with
    value_heads := [("extrinsic", 10)] }

def cexBatch : AgentBuffer :=
  ⟨[("actions", [[3]]), ("vector_obs", [[1]]), ("prev_action", [[3]])], 1⟩

def cexObs : List RawObs := [RawObs.vec [4]]

def recSession : Session := ⟨fun _ _ => [[5]]⟩

def recPolicy : TFPolicy :=
  { sess := recSession, batch_size_ph := 0, sequence_length_ph := 1, vector_in := 2,
    visual_in := [], vec_obs_size := 1, vis_obs_size := 0, use_recurrent := true,
    memory_in := some 30, memory_out := some 31, m_size := 2, sequence_length := 1,
    prev_action := none }

def recOpt : TFOptimizer :=
  { TFOptimizer.init recPolicy ⟨[("extrinsic", ⟨false, []⟩)]⟩ with
    value_heads := [("extrinsic", 10)], memory_in := some 32, memory_out := some 33,
    m_size := 2 }

def recBatch : AgentBuffer := ⟨[("vector_obs", [[1], [2]]), ("actions", [[3], [4]])], 2⟩

def recObs : List RawObs := [RawObs.vec [4]]

/-- C4 counterexample: a non-recurrent policy that conditions on previous
action (`prev_action` placeholder 99). The batch's last action is `[3]`, yet
the bootstrap estimate actually returned by `get_trajectory_value_estimates`
is the one computed with no `prev_action` context (value `2`), not the one
`get_value_estimates` computes when it is handed the last action (value `1`):
the delegation does not pass the last action for this policy. -/
theorem C4_cex :
    cexOpt.policy.prev_action.isSome = true ∧
    (cexBatch.get ("actions")).getLast? = some [3] ∧
    cexOpt.get_trajectory_value_estimates cexBatch cexObs false =
      some ([("extrinsic", [1])], [("extrinsic", 2)]) ∧
    cexOpt.get_value_estimates cexObs false none none (some [3]) =
      some [("extrinsic", 1)] ∧
    ¬ ([(("extrinsic" : String), (2 : PyFloat))] = [("extrinsic", (1 : PyFloat))]) :=
  ⟨by decide, by decide, by decide, by decide, by decide⟩

/-- C4 (amended): `get_trajectory_value_estimates` always delegates to
`get_value_estimates` on `next_obs` to produce the bootstrap estimate; only
when the policy is recurrent does it pass the final-step memory states (the
session's outputs for the policy and value memory-out tensors over the batch
feed) and the last entry of the batch's "actions" field as the prev_action
context — when the policy is not recurrent it passes no memory and no
previous-action context, even for a policy that conditions on previous
action. -/
theorem C4_delegation_amended (opt : TFOptimizer) (batch : AgentBuffer)
    (next_obs : List RawObs) (done : Bool)
    (ve : List (String × List PyFloat)) (fve : List (String × PyFloat))
    (h : opt.get_trajectory_value_estimates batch next_obs done = some (ve, fve)) :
    some fve =
      if opt.policy.use_recurrent then
        opt.policy.memory_out.bind (fun pmt => opt.memory_out.bind (fun vmt =>
          ((batch.get ("actions")).getLast?).bind (fun la =>
            opt.get_value_estimates next_obs done
              (some (opt.sess.eval (opt.trajectoryFeed batch) pmt))
              (some (opt.sess.eval (opt.trajectoryFeed batch) vmt))
              (some la))))
      else opt.get_value_estimates next_obs done none none none := by
  simp only [TFOptimizer.get_trajectory_value_estimates, TFOptimizer.trajectoryRun] at h
  cases hrec : opt.policy.use_recurrent with
  | false =>
    rw [hrec] at h
    simp only [Bool.false_eq_true, if_false] at h ⊢
    cases hgv : opt.get_value_estimates next_obs done none none none with
    | none => rw [hgv] at h; simp at h
    | some fve0 =>
      rw [hgv] at h
      simp only [Option.some.injEq, Prod.mk.injEq] at h
      rw [h.2]
  | true =>
    rw [hrec] at h
    simp only [if_true] at h ⊢
    cases hpm : opt.policy.memory_out with
    | none => rw [hpm] at h; simp at h
    | some pmt =>
      cases hvm : opt.memory_out with
      | none => rw [hpm, hvm] at h; simp at h
      | some vmt =>
        rw [hpm, hvm] at h
        dsimp only at h
        simp only [Option.some_bind]
        cases hla : (batch.get ("actions")).getLast? with
        | none => rw [hla] at h; simp at h
        | some la =>
          rw [hla] at h
          simp only [Option.some_bind]
          dsimp only at h
          cases hgv : opt.get_value_estimates next_obs done
              (some (opt.sess.eval (opt.trajectoryFeed batch) pmt))
              (some (opt.sess.eval (opt.trajectoryFeed batch) vmt)) (some la) with
          | none => rw [hgv] at h; simp at h
          | some fve0 =>
            rw [hgv] at h
            simp only [Option.some.injEq, Prod.mk.injEq] at h
            rw [h.2]

/-- C4 witness: on the concrete recurrent optimizer, the bootstrap estimate
is exactly `get_value_estimates` applied with the batch-run memory outputs
and the last action. -/
theorem C4_witness :
    some [(("extrinsic" : String), (5 : PyFloat))] =
      if recOpt.policy.use_recurrent then
        recOpt.policy.memory_out.bind (fun pmt => recOpt.memory_out.bind (fun vmt =>
          ((recBatch.get ("actions")).getLast?).bind (fun la =>
            recOpt.get_value_estimates recObs false
              (some (recOpt.sess.eval (recOpt.trajectoryFeed recBatch) pmt))
              (some (recOpt.sess.eval (recOpt.trajectoryFeed recBatch) vmt))
              (some la))))
      else recOpt.get_value_estimates recObs false none none none :=
  C4_delegation_amended recOpt recBatch recObs false [("extrinsic", [5])]
    [("extrinsic", 5)] (by decide)

/-- The length of a positive-stride Python range is the ceiling of the span
divided by the stride. -/
theorem rangeStep_length_aux (step : Nat) (hstep : 0 < step) :
    ∀ n start stop, stop - start = n →
      (rangeStep start stop step).length = (stop - start + step - 1) / step := by
  intro n
  induction n using Nat.strong_induction_on with
  | _ n ih =>
    intro start stop hn
    rw [rangeStep]
    split
    next hcond =>
      rw [List.length_cons,
        ih (stop - (start + step)) (by omega) (start + step) stop rfl]
      rcases Nat.lt_or_ge step (stop - start) with hlt | hge
      · have h1 : stop - (start + step) + step - 1 = stop - start - 1 := by omega
        have h2 : stop - start + step - 1 = stop - start - 1 + step := by omega
        rw [h1, h2, Nat.add_div_right _ hstep]
      · have h1 : stop - (start + step) = 0 := by omega
        have h2 : stop - start + step - 1 = stop - start - 1 + step := by omega
        rw [h1, h2, Nat.add_div_right _ hstep,
          Nat.div_eq_of_lt (by omega), Nat.div_eq_of_lt (by omega)]
    next hcond =>
      push_neg at hcond
      have hz : stop - start = 0 := by
        have := hcond hstep
        omega
      rw [List.length_nil, hz, Nat.zero_add]
      exact (Nat.div_eq_of_lt (by omega)).symm

/-- The range length, stated directly. -/
theorem rangeStep_length (start stop step : Nat) (h : 0 < step) :
    (rangeStep start stop step).length = (stop - start + step - 1) / step :=
  rangeStep_length_aux step h (stop - start) start stop rfl

/-- Mapping a constant over a list yields a replicate of its length. -/
theorem map_const_replicate {α β : Type} (c : β) :
    ∀ l : List α, l.map (fun _ => c) = List.replicate l.length c := by
  intro l
  induction l with
  | nil => rfl
  | cons a t ih => simp [List.replicate_succ, ih]

/-- C5: for every `m_size` and `length`, `_make_zero_mem` returns one
zero-filled vector of size `m_size` per recurrent-sequence boundary in a span
of `length` timesteps with stride the policy's sequence length, i.e. exactly
ceil(length / sequence_length) zero vectors. -/
theorem C5_make_zero_mem (opt : TFOptimizer) (m_size length : Nat)
    (h : 0 < opt.policy.sequence_length) :
    opt._make_zero_mem m_size length =
      List.replicate
        ((length + opt.policy.sequence_length - 1) / opt.policy.sequence_length)
        (List.replicate m_size (0 : PyFloat)) := by
  unfold TFOptimizer._make_zero_mem
  rw [map_const_replicate, rangeStep_length 0 length _ h, Nat.sub_zero]
  rfl

/-- C5 witness: on the sample optimizer (sequence length 8),
`_make_zero_mem(8, 24)` is exactly 3 zero vectors of size 8. -/
theorem C5_witness :
    sampleOpt._make_zero_mem 8 24 = List.replicate 3 (List.replicate 8 (0 : PyFloat)) :=
  C5_make_zero_mem sampleOpt 8 24 (by decide)

/-- C6: `get_value_estimates` is deterministic: the call itself leaves the
optimizer state untouched (the source method assigns no attribute of `self`),
so a second call with identical input arguments and no intervening `update`
returns the identical output mapping. -/
theorem C6_deterministic (opt : TFOptimizer) (next_obs : List RawObs) (done : Bool)
    (pm vm : Option (List (List PyFloat))) (pa : Option (List PyFloat)) :
    (opt.get_value_estimates_st next_obs done pm vm pa).1 =
      (((opt.get_value_estimates_st next_obs done pm vm pa).2).get_value_estimates_st
          next_obs done pm vm pa).1 :=
  rfl

/-- The reward-signal loop never touches the bound policy. -/
theorem foldl_rewardSignalStep_policy (configs : List (String × RewardSignalConfig)) :
    ∀ o : TFOptimizer, (configs.foldl rewardSignalStep o).policy = o.policy := by
  induction configs with
  | nil => intro o; rfl
  | cons kv rest ih =>
    intro o
    rw [List.foldl_cons, ih]
    rfl

/-- C7: construction requires a Policy — `TFOptimizer.init`'s type demands a
`TFPolicy` argument, the embedding of the abstract base's required
constructor parameter — and every successfully constructed optimizer is bound
to exactly the one policy passed. -/
theorem C7_policy_bound (p : TFPolicy) (tp : TrainerParams) :
    (TFOptimizer.init p tp).policy = p := by
  unfold TFOptimizer.init TFOptimizer.create_reward_signals
  rw [foldl_rewardSignalStep_policy]

/-- C8: the estimation routine never mutates the buffer passed to it: every
buffer access in the source is a read, so after the call the batch — all its
fields — is unchanged. -/
theorem C8_buffer_frame (opt : TFOptimizer) (batch : AgentBuffer)
    (next_obs : List RawObs) (done : Bool) :
    (opt.get_trajectory_value_estimates_frame batch next_obs done).2 = batch :=
  rfl

/-- C9: `_execute_model` returns a mapping whose keys are exactly the keys of
`out_dict` in the same order, each bound to the value the one graph execution
computes for the corresponding tensor. -/
theorem C9_execute_model (opt : TFOptimizer) (feed_dict : FeedDict)
    (out_dict : List (String × Tensor)) :
    opt._execute_model feed_dict out_dict =
      out_dict.map (fun kv => (kv.1, opt.sess.eval feed_dict kv.2)) := by
  unfold TFOptimizer._execute_model Session.runList
  induction out_dict with
  | nil => rfl
  | cons kv rest ih => simpa using ih

/-- Inserting a fresh key appends the binding at the end. -/
theorem dictInsert_append_of_fresh {α β : Type} [BEq α] [LawfulBEq α]
    (k : α) (v : β) :
    ∀ d : List (α × β), k ∉ d.map Prod.fst → dictInsert d k v = d ++ [(k, v)] := by
  intro d
  induction d with
  | nil => intro _; rfl
  | cons kv rest ih =>
    intro hk
    have hne : (kv.1 == k) = false := by
      apply beq_eq_false_iff_ne.mpr
      intro he
      exact hk (by simp [← he])
    simp only [dictInsert, hne, Bool.false_eq_true, if_false, List.cons_append,
      List.cons.injEq, true_and]
    exact ih (by
      intro hmem
      exact hk (by simp [hmem]))

/-- Inserting never removes a key. -/
theorem mem_keys_dictInsert {α β : Type} [BEq α] [LawfulBEq α]
    (k : α) (v : β) (a : α) :
    ∀ d : List (α × β), a ∈ d.map Prod.fst → a ∈ (dictInsert d k v).map Prod.fst := by
  intro d
  induction d with
  | nil => intro ha; simp at ha
  | cons kv rest ih =>
    intro ha
    simp only [dictInsert]
    cases hkb : (kv.1 == k) with
    | true =>
      have hke : kv.1 = k := eq_of_beq hkb
      simp only [hkb, if_true, List.map_cons, List.mem_cons]
      rcases List.mem_cons.mp ha with hh | ht
      · exact Or.inl (by rw [hh, hke])
      · exact Or.inr ht
    | false =>
      simp only [hkb, Bool.false_eq_true, if_false, List.map_cons, List.mem_cons]
      rcases List.mem_cons.mp ha with hh | ht
      · exact Or.inl hh
      · exact Or.inr (ih ht)

/-- `dict.update` never removes a key. -/
theorem mem_keys_dictUpdate {α β : Type} [BEq α] [LawfulBEq α]
    (d2 : List (α × β)) :
    ∀ (d : List (α × β)) (a : α),
      a ∈ d.map Prod.fst → a ∈ (dictUpdate d d2).map Prod.fst := by
  induction d2 with
  | nil => intro d a ha; exact ha
  | cons kv rest ih =>
    intro d a ha
    exact ih (dictInsert d kv.1 kv.2) a (mem_keys_dictInsert kv.1 kv.2 a d ha)

/-- With duplicate-free config names disjoint from the accumulated signal
dict, the reward-signal loop appends the config names in order. -/
theorem foldl_rewardSignalStep_keys (configs : List (String × RewardSignalConfig)) :
    ∀ o : TFOptimizer, (configs.map Prod.fst).Nodup →
      (∀ a ∈ configs.map Prod.fst, a ∉ o.reward_signals.map Prod.fst) →
      (configs.foldl rewardSignalStep o).reward_signals.map Prod.fst =
        o.reward_signals.map Prod.fst ++ configs.map Prod.fst := by
  induction configs with
  | nil => intro o _ _; simp
  | cons kv rest ih =>
    intro o hnd hdisj
    rw [List.map_cons] at hnd
    have hnd2 := List.nodup_cons.mp hnd
    rw [List.foldl_cons]
    have hfresh : kv.1 ∉ o.reward_signals.map Prod.fst := hdisj kv.1 (by simp)
    have hstep : (rewardSignalStep o kv).reward_signals.map Prod.fst =
        o.reward_signals.map Prod.fst ++ [kv.1] := by
      simp only [rewardSignalStep]
      rw [dictInsert_append_of_fresh kv.1 _ _ hfresh]
      simp
    rw [ih (rewardSignalStep o kv) hnd2.2
          (by
            intro a hmem
            rw [hstep]
            simp only [List.mem_append, List.mem_singleton]
            rintro (hin | heq)
            · exact hdisj a (by simp [hmem]) hin
            · rw [heq] at hmem
              exact hnd2.1 hmem),
        hstep, List.append_assoc, List.singleton_append, List.map_cons]

/-- The reward-signal loop only extends the combined update target set. -/
theorem foldl_rewardSignalStep_update_mem (configs : List (String × RewardSignalConfig)) :
    ∀ (o : TFOptimizer) (a : String), a ∈ o.update_dict.map Prod.fst →
      a ∈ (configs.foldl rewardSignalStep o).update_dict.map Prod.fst := by
  induction configs with
  | nil => intro o a ha; exact ha
  | cons kv rest ih =>
    intro o a ha
    rw [List.foldl_cons]
    exact ih (rewardSignalStep o kv) a (mem_keys_dictUpdate _ o.update_dict a ha)

/-- C10: each `create_reward_signals` call replaces the reward-signal set
entirely — afterwards the signal names are exactly the configuration's keys —
but `update_dict` is only extended, never cleared: every update-target key
present before the call is still present after it. -/
theorem C10_reward_signal_replacement (opt : TFOptimizer)
    (configs : List (String × RewardSignalConfig))
    (hnd : (configs.map Prod.fst).Nodup) :
    (opt.create_reward_signals configs).reward_signals.map Prod.fst =
      configs.map Prod.fst ∧
    opt.update_dict.map Prod.fst ⊆
      (opt.create_reward_signals configs).update_dict.map Prod.fst := by
  constructor
  · unfold TFOptimizer.create_reward_signals
    rw [foldl_rewardSignalStep_keys configs _ hnd (by intro a _ ha2; simp at ha2)]
    rfl
  · intro a ha
    unfold TFOptimizer.create_reward_signals
    exact foldl_rewardSignalStep_update_mem configs _ a ha

/-- A fixture with a pre-existing update-target entry, for the C10 witness. -/
def c10Opt : TFOptimizer := { sampleOpt with update_dict := [("old", 7)] }

/-- C10 witness: registering a fresh configuration replaces the signal names
and keeps the earlier update-target key. -/
theorem C10_witness :
    (c10Opt.create_reward_signals
        [("gail", ⟨false, [("g1", 50)]⟩)]).reward_signals.map Prod.fst = ["gail"] ∧
    ["old"] ⊆ (c10Opt.create_reward_signals
        [("gail", ⟨false, [("g1", 50)]⟩)]).update_dict.map Prod.fst :=
  C10_reward_signal_replacement c10Opt [("gail", ⟨false, [("g1", 50)]⟩)] (by decide)

end MLAgentsOpt
